import Mathlib

/-!
Shallow embedding of the NegativeSplit synchronization engine
(`packages/strava-api/src/strava_api/sync_service.py` and
`packages/strava-api/src/strava_api/token_manager.py`) and proofs of the
spec claims about it.

Modelling conventions:
* machine/JSON integers are `Nat`/`Int`;
* the filesystem (gpx directory, parquet file, token file) is explicit state;
* the network is a pure response function supplied as a parameter;
* Python exceptions are `Except` errors; `(False, x)` style soft results are
  `Option`;
* pandas `DataFrame` values are lists of rows in order.
-/

/-- One activity summary row, as returned by the activity-list endpoint.
Identity is `id`; `name` and `start_date` are the fields the sync loop reads.
`payload` stands for the remaining open set of summary fields, so that two
rows with the same id can still differ. -/
structure Activity where
  id : Nat
  name : String
  start_date : String
  payload : Int := 0
  deriving Repr, DecidableEq

/-- pandas `drop_duplicates(subset=["id"])`: keeps the first occurrence of
each id, preserving row order. -/
def dropDuplicatesById : List Activity → List Activity
  | [] => []
  | a :: rest => a :: dropDuplicatesById (rest.filter (fun b => b.id ≠ a.id))
termination_by l => l.length
decreasing_by
  simp only [List.length_cons]
  exact Nat.lt_succ_of_le (List.length_filter_le _ _)

/-- `StravaSync.update_local_db`. The parquet file contents are
`Option (List Activity)`: `none` when `self.parquet_path.exists()` is false.
With an existing file the code runs
`pd.concat([new_df, old_df]).drop_duplicates(subset=["id"])`;
otherwise it persists `new_df` as is. Returns the persisted dataset. -/
def update_local_db (existing : Option (List Activity)) (new_data : List Activity) :
    List Activity :=
  match existing with
  | some old_df => dropDuplicatesById (new_data ++ old_df)
  | none => new_data

/-- The inner page scan of `StravaSync.fetch_new_activity_list`: for each
item, if `str(act["id"])` is in `local_ids` set `found_old_activity` and
`continue`; otherwise append to `new_activities`. Ids are gpx file stems,
i.e. the decimal print of the id, so id equality is modelled on `Nat`.
Returns (appended new activities in order, found_old_activity flag). -/
def scanPage (local_ids : List Nat) : List Activity → List Activity × Bool
  | [] => ([], false)
  | act :: rest =>
    let pr := scanPage local_ids rest
    if act.id ∈ local_ids then (pr.1, true) else (act :: pr.1, pr.2)

/-- The `while True` pagination loop of `fetch_new_activity_list`, with
explicit fuel bounding how many pages may be requested. `pages` is the
remote: the body of the page-`p` response. Accumulates the new activities
and the list of page numbers actually requested. Fuel running out models a
non-terminating remote and returns the state reached so far. -/
def fetchGo (pages : Nat → List Activity) (local_ids : List Nat) :
    Nat → Nat → List Activity × List Nat
  | 0, _ => ([], [])
  | fuel + 1, page =>
    let activities := pages page
    if activities = [] then ([], [page])
    else
      let pr := scanPage local_ids activities
      if pr.2 then (pr.1, [page])
      else
        let rec_result := fetchGo pages local_ids fuel (page + 1)
        (pr.1 ++ rec_result.1, page :: rec_result.2)

/-- `StravaSync.fetch_new_activity_list`. Starts at page 1 with empty
accumulator; returns `none` ("everything up to date") when no new
activities were collected, together with the pages requested. -/
def fetch_new_activity_list (pages : Nat → List Activity) (local_ids : List Nat)
    (fuel : Nat) : Option (List Activity) × List Nat :=
  let pr := fetchGo pages local_ids fuel 1
  (if pr.1 = [] then none else some pr.1, pr.2)

/-! ## Credential store (`token_manager.py`) -/

/-- `StravaToken` (pydantic model): access token, refresh token and the
absolute expiry timestamp (epoch seconds). `time.time()` is modelled at
integer granularity. -/
structure StravaToken where
  access_token : String
  refresh_token : String
  expires_at : Int
  deriving Repr, DecidableEq

/-- Error raised by `TokenManager.get_valid_token` when no token file
exists (`MissingStravaTokenError`). -/
inductive TokenError
  | missingStravaToken
  deriving Repr, DecidableEq

/-- Result of `TokenManager.get_valid_token`, with the effects made
explicit: the returned access token, the token-file contents after the call
(`save_token` happens inside `refresh_token`, before it returns), and the
number of refresh-endpoint calls made. -/
structure TokenResult where
  access_token : String
  cache : Option StravaToken
  refresh_calls : Nat
  deriving Repr, DecidableEq

/-- `TokenManager.get_valid_token` followed by `TokenManager.refresh_token`
when needed. `cache` is the token file (`none` = file absent);
`refreshEndpoint` is the token-refresh endpoint, mapping the posted refresh
token to the credential JSON it returns; `now` is `time.time()`.
The code refreshes iff `token.expires_at < time.time() + 300`; on refresh it
persists the endpoint response verbatim via `save_token` and returns its
`access_token` field. -/
def get_valid_token (refreshEndpoint : String → StravaToken) (now : Int)
    (cache : Option StravaToken) : Except TokenError TokenResult :=
  match cache with
  | none => .error .missingStravaToken
  | some token =>
    if token.expires_at < now + 300 then
      let new_token_data := refreshEndpoint token.refresh_token
      .ok ⟨new_token_data.access_token, some new_token_data, 1⟩
    else
      .ok ⟨token.access_token, some token, 0⟩

/-! ## ISO-8601 start-time parsing (`datetime.strptime(s, "%Y-%m-%dT%H:%M:%SZ")`)

`create_gpx` parses the activity start date and adds per-point second
offsets via `timedelta`. Datetimes are modelled as epoch seconds, computed
from the civil date with the standard days-from-civil formula, so that
`datetime + timedelta(seconds=k)` is `+ k`. -/

/-- Leap-year rule of the proleptic Gregorian calendar used by `datetime`. -/
def isLeapYear (y : Nat) : Bool :=
  (y % 4 = 0 && y % 100 ≠ 0) || y % 400 = 0

/-- Days in a month, as validated by `datetime`'s constructor. -/
def daysInMonth (y m : Nat) : Nat :=
  if m = 2 then (if isLeapYear y then 29 else 28)
  else if m = 4 ∨ m = 6 ∨ m = 9 ∨ m = 11 then 30
  else 31

/-- Days from 1970-01-01 to year `y`, month `m`, day `d` (valid Gregorian
dates after year 400; the sync only sees contemporary dates). -/
def daysFromCivil (y m d : Nat) : Int :=
  let yy : Nat := if m ≤ 2 then y - 1 else y
  let era : Nat := yy / 400
  let yoe : Nat := yy % 400
  let mp : Nat := (m + 9) % 12
  let doy : Nat := (153 * mp + 2) / 5 + (d - 1)
  let doe : Nat := yoe * 365 + yoe / 4 - yoe / 100 + doy
  (era * 146097 + doe : Int) - 719468

/-- Parse a fixed run of decimal digits. -/
def parseDigits : List Char → Option Nat
  | [] => some 0
  | c :: cs =>
    if c.isDigit then
      (parseDigits cs).map (fun n => (c.toNat - 48) * 10 ^ cs.length + n)
    else none

/-- `datetime.strptime(s, "%Y-%m-%dT%H:%M:%SZ")`, returning epoch seconds;
`none` models the `ValueError` strptime raises on malformed input.
Validates field ranges the way `datetime` does. -/
def parseStartDate (s : String) : Option Int :=
  match s.toList with
  | [y1, y2, y3, y4, '-', m1, m2, '-', d1, d2, 'T',
     h1, h2, ':', n1, n2, ':', s1, s2, 'Z'] =>
    match parseDigits [y1, y2, y3, y4], parseDigits [m1, m2],
        parseDigits [d1, d2], parseDigits [h1, h2],
        parseDigits [n1, n2], parseDigits [s1, s2] with
    | some y, some mo, some d, some h, some mi, some sec =>
      if 1 ≤ mo ∧ mo ≤ 12 ∧ 1 ≤ d ∧ d ≤ daysInMonth y mo ∧
          h ≤ 23 ∧ mi ≤ 59 ∧ sec ≤ 59 ∧ 1 ≤ y then
        some (daysFromCivil y mo d * 86400 + h * 3600 + mi * 60 + sec)
      else none
    | _, _, _, _, _, _ => none
  | _ => none

/-! ## Track builder (`StravaSync.create_gpx`) -/

/-- The per-activity stream bundle, keyed by type. Each channel is `none`
when the key (or its `"data"` entry) is absent from the response mapping,
`some xs` when present. Latitude/longitude and altitude values are carried
opaquely as integers (the builder copies them, never computes with them). -/
structure StreamSet where
  latlng : Option (List (Int × Int)) := none
  altitude : Option (List Int) := none
  time : Option (List Int) := none
  deriving Repr, DecidableEq

/-- One GPX track point: `gpx.GPXTrackPoint(latitude, longitude, elevation,
time=start_time + timedelta(seconds=seconds))`, the time as epoch seconds. -/
structure GpxPoint where
  latitude : Int
  longitude : Int
  elevation : Int
  time : Int
  deriving Repr, DecidableEq

/-- Errors `create_gpx` can raise (both surface as Python `ValueError`):
`channelMismatch` from `zip(..., strict=True)` on unequal channel lengths,
`badStartDate` from `strptime` on a malformed start date. -/
inductive GpxError
  | channelMismatch
  | badStartDate
  deriving Repr, DecidableEq

/-- `zip(latlngs, altitudes, times, strict=True)`: `none` models the
`ValueError` raised when the three lists do not all have the same length. -/
def zip3Strict : List α → List β → List γ → Option (List (α × β × γ))
  | [], [], [] => some []
  | a :: as, b :: bs, c :: cs =>
    (zip3Strict as bs cs).map (fun l => (a, b, c) :: l)
  | _, _, _ => none

/-- `StravaSync.create_gpx`. Returns `.ok none` for the `(False, "")`
"no track" result (position channel absent or empty), `.ok (some points)`
for `(True, xml)` — the track is modelled as its ordered point list, the
single segment the code builds — and `.error` for raised `ValueError`s.
Missing altitude defaults to `[0] * len(latlngs)`; missing time offsets
default to `range(len(latlngs))`. -/
def create_gpx (streams : StreamSet) (start_time_string : String) :
    Except GpxError (Option (List GpxPoint)) :=
  match streams.latlng with
  | none => .ok none
  | some [] => .ok none
  | some latlngs =>
    match parseStartDate start_time_string with
    | none => .error .badStartDate
    | some start_time =>
      let altitudes := streams.altitude.getD (List.replicate latlngs.length 0)
      let times := streams.time.getD ((List.range latlngs.length).map Int.ofNat)
      match zip3Strict latlngs altitudes times with
      | none => .error .channelMismatch
      | some triples =>
        .ok (some (triples.map (fun t =>
          ⟨t.1.1, t.1.2, t.2.1, start_time + t.2.2⟩)))

deriving instance DecidableEq for Except

/-! ## The sync run (`StravaSync.sync`, `get_streams`, `_update_rate_limits`)

The filesystem is explicit state; the network is a pure response function.
Observable actions (requests, sleeps, gpx writes, the skip log line) are
recorded in an event trace in program order. -/

/-- The two quota pairs of the `X-Ratelimit-Usage` / `X-Ratelimit-Limit`
response headers: `(15min used, 15min limit, daily used, daily limit)`. -/
structure RateHeaders where
  usage15 : Nat
  limit15 : Nat
  usageDaily : Nat
  limitDaily : Nat
  deriving Repr, DecidableEq

/-- A stream-endpoint response: HTTP status, optional rate-limit headers,
and the decoded JSON body. -/
structure StreamResponse where
  status : Nat
  headers : Option RateHeaders := none
  body : StreamSet := {}
  deriving Repr, DecidableEq

/-- Observable actions of a sync run, in program order. -/
inductive Event
  /-- activity-list request for one page (`client.get(...athlete/activities...)`). -/
  | fetchPage (page : Nat)
  /-- stream request for one activity (`client.get(.../streams)`). -/
  | streamCall (id : Nat)
  /-- the rate governor's `time.sleep(30)` cooldown. -/
  | sleepCooldown
  /-- a gpx file write (`gpx_path.write_text`). -/
  | writeGpx (id : Nat)
  /-- the loop's fixed `time.sleep(0.5)` delay. -/
  | sleepFixed
  /-- the `except httpx.HTTPStatusError` branch: activity skipped. -/
  | skip (id : Nat)
  deriving Repr, DecidableEq

/-- The durable and in-memory state a sync run touches: the set of activity
ids with a gpx file in `gpx_dir` (file contents are not read back, only
existence, so only the id set is modelled), the parquet dataset (`none` =
file absent), and the `rate_limit_usage` field. -/
structure SyncState where
  gpxIds : List Nat
  db : Option (List Activity)
  rate_limit_usage : Option RateHeaders := none
  deriving Repr, DecidableEq

/-- `StravaSync.get_local_activity_ids`: the stems of the `*.gpx` files. -/
def get_local_activity_ids (st : SyncState) : List Nat :=
  st.gpxIds

/-- `StravaSync._update_rate_limits`: records the parsed quota pairs and, if
15-minute usage exceeds 90% of its limit, sleeps 30s. The float comparison
`used > limit * 0.9` is modelled exactly as the rational `10 * used >
9 * limit`. Returns the updated state and emitted events. -/
def update_rate_limits (st : SyncState) (headers : Option RateHeaders) :
    SyncState × List Event :=
  match headers with
  | none => (st, [])
  | some h =>
    let st1 := { st with rate_limit_usage := some h }
    if 10 * h.usage15 > 9 * h.limit15 then (st1, [.sleepCooldown]) else (st1, [])

/-- Outcome of `StravaSync.get_streams`: the `(has_streams, streams)` tuple,
or the `httpx.HTTPStatusError` that `raise_for_status` raises on a non-2xx,
non-404 status. -/
inductive StreamsResult
  | ok (has_streams : Bool) (streams : StreamSet)
  | statusError (status : Nat)
  deriving Repr, DecidableEq

/-- `raise_for_status` raises unless the status is a 2xx success. -/
def is2xx (status : Nat) : Bool :=
  200 ≤ status && status ≤ 299

/-- `StravaSync.get_streams`: performs the stream request, updates rate
limits from the response headers, returns `(False, {})` on 404, raises on
any other non-2xx status, else `(True, body)`. -/
def get_streams (streamResp : Nat → StreamResponse) (activity_id : Nat)
    (st : SyncState) : SyncState × List Event × StreamsResult :=
  let resp := streamResp activity_id
  let pr := update_rate_limits st resp.headers
  let ev := Event.streamCall activity_id :: pr.2
  if resp.status = 404 then (pr.1, ev, .ok false {})
  else if is2xx resp.status then (pr.1, ev, .ok true resp.body)
  else (pr.1, ev, .statusError resp.status)

/-- One iteration of the per-activity `for` loop in `StravaSync.sync`:
fetch streams; on success build the gpx and write it if no file exists yet;
`time.sleep(0.5)`; `except httpx.HTTPStatusError: continue`. A `ValueError`
from `create_gpx` (channel mismatch / bad start date) is not caught and
propagates, carrying the state and events so far. -/
def processActivity (streamResp : Nat → StreamResponse) (act : Activity)
    (st : SyncState) :
    Except (GpxError × SyncState × List Event) (SyncState × List Event) :=
  let gr := get_streams streamResp act.id st
  let st1 := gr.1
  let ev1 := gr.2.1
  match gr.2.2 with
  | .statusError _ => .ok (st1, ev1 ++ [.skip act.id])
  | .ok has_streams streams =>
    if has_streams then
      match create_gpx streams act.start_date with
      | .error e => .error (e, st1, ev1)
      | .ok none => .ok (st1, ev1 ++ [.sleepFixed])
      | .ok (some _points) =>
        if act.id ∈ st1.gpxIds then .ok (st1, ev1 ++ [.sleepFixed])
        else .ok ({ st1 with gpxIds := act.id :: st1.gpxIds },
          ev1 ++ [.writeGpx act.id, .sleepFixed])
    else .ok (st1, ev1 ++ [.sleepFixed])

/-- The whole per-activity `for` loop, threading state and concatenating
per-activity events; stops at the first uncaught error. -/
def syncLoop (streamResp : Nat → StreamResponse) :
    List Activity → SyncState →
    Except (GpxError × SyncState × List Event) (SyncState × List Event)
  | [], st => .ok (st, [])
  | act :: rest, st =>
    match processActivity streamResp act st with
    | .error e => .error e
    | .ok (st1, ev1) =>
      match syncLoop streamResp rest st1 with
      | .error (e, st2, ev2) => .error (e, st2, ev1 ++ ev2)
      | .ok (st2, ev2) => .ok (st2, ev1 ++ ev2)

/-- `StravaSync.sync`, from delta discovery on (the credential step,
`token_manager.get_valid_token`, is modelled separately above; the token is
only passed through to the request functions, which are abstracted by
`streamResp`/`pages`). Fetches the new-activity list; returns early if
there are none; runs the per-activity loop; finally merges all discovered
summaries into the dataset with `update_local_db`. -/
def sync (streamResp : Nat → StreamResponse) (pages : Nat → List Activity)
    (fuel : Nat) (st : SyncState) :
    Except (GpxError × SyncState × List Event) (SyncState × List Event) :=
  let local_ids := get_local_activity_ids st
  let fr := fetch_new_activity_list pages local_ids fuel
  let ev0 := fr.2.map Event.fetchPage
  match fr.1 with
  | none => .ok (st, ev0)
  | some new_activities =>
    match syncLoop streamResp new_activities st with
    | .error (e, st1, ev1) => .error (e, st1, ev0 ++ ev1)
    | .ok (st1, ev1) =>
      let final_df := update_local_db st1.db new_activities
      .ok ({ st1 with db := some final_df }, ev0 ++ ev1)

/-- The event trace of a run, whether it completed or aborted. -/
def syncTrace
    (r : Except (GpxError × SyncState × List Event) (SyncState × List Event)) :
    List Event :=
  match r with
  | .ok pr => pr.2
  | .error t => t.2.2

/-! ## Trace predicates for the delay claim -/

/-- Does a fixed delay (`sleepFixed`) occur before the next stream request?
Scans forward; reaching the end with no further request also counts. -/
def sleepBeforeNextCall : List Event → Bool
  | [] => true
  | .sleepFixed :: _ => true
  | .streamCall _ :: _ => false
  | _ :: rest => sleepBeforeNextCall rest

/-- The delay discipline as the spec states it: after every stream-fetch
attempt, the fixed delay occurs before the next stream request. -/
def everyAttemptDelayed : List Event → Bool
  | [] => true
  | .streamCall _ :: rest => sleepBeforeNextCall rest && everyAttemptDelayed rest
  | _ :: rest => everyAttemptDelayed rest

/-- Like `sleepBeforeNextCall`, but a skip marker also discharges the
obligation: the attempt was abandoned by the error handler. -/
def delayOrSkipBeforeNextCall : List Event → Bool
  | [] => true
  | .sleepFixed :: _ => true
  | .skip _ :: _ => true
  | .streamCall _ :: _ => false
  | _ :: rest => delayOrSkipBeforeNextCall rest

/-- The delay discipline the code actually maintains: after every
stream-fetch attempt, a fixed delay or a skip occurs before the next
stream request. -/
def everyAttemptDelayedOrSkipped : List Event → Bool
  | [] => true
  | .streamCall _ :: rest =>
    delayOrSkipBeforeNextCall rest && everyAttemptDelayedOrSkipped rest
  | _ :: rest => everyAttemptDelayedOrSkipped rest

/-- Is this event a stream request? -/
def isStreamCall : Event → Bool
  | .streamCall _ => true
  | _ => false

/-- Events that discharge the between-attempts obligation: the fixed delay
or the skip marker. -/
def isTerminator : Event → Bool
  | .sleepFixed => true
  | .skip _ => true
  | _ => false

/-- Does the per-activity body abandon this activity via the
`except httpx.HTTPStatusError` handler? True iff the response status is
neither 404 nor a 2xx success. -/
def isSkippedStatus (resp : StreamResponse) : Bool :=
  resp.status ≠ 404 && !is2xx resp.status

/-- Can the per-activity body finish without an uncaught `ValueError`?
Only a 2xx response whose body fails `create_gpx` aborts the run. -/
def actOk (streamResp : Nat → StreamResponse) (act : Activity) : Bool :=
  let resp := streamResp act.id
  if resp.status = 404 then true
  else if is2xx resp.status then
    match create_gpx resp.body act.start_date with
    | .ok _ => true
    | .error _ => false
  else true

/-- No gpx file can be written for this activity: any 2xx response body
lacks a non-empty position channel (other statuses never reach the track
builder). -/
def noWritePossible (streamResp : Nat → StreamResponse) (act : Activity) : Bool :=
  let resp := streamResp act.id
  if resp.status = 404 then true
  else if is2xx resp.status then
    match resp.body.latlng with
    | none => true
    | some [] => true
    | some (_ :: _) => false
  else true

/-! ## Lemmas about the dataset merge -/

theorem dropDup_nil : dropDuplicatesById [] = [] := by
  rw [dropDuplicatesById]

theorem dropDup_cons (a : Activity) (rest : List Activity) :
    dropDuplicatesById (a :: rest)
      = a :: dropDuplicatesById (rest.filter (fun b => b.id ≠ a.id)) := by
  rw [dropDuplicatesById]

theorem dropDup_subset (l : List Activity) : dropDuplicatesById l ⊆ l := by
  induction l using dropDuplicatesById.induct with
  | case1 => simp [dropDup_nil]
  | case2 a rest ih =>
    rw [dropDup_cons]
    intro x hx
    rcases List.mem_cons.1 hx with h | h
    · simp [h]
    · exact List.mem_cons_of_mem a (List.mem_of_mem_filter (ih h))

theorem dropDup_pairwise (l : List Activity) :
    (dropDuplicatesById l).Pairwise (fun a b => a.id ≠ b.id) := by
  induction l using dropDuplicatesById.induct with
  | case1 => simp [dropDup_nil]
  | case2 a rest ih =>
    rw [dropDup_cons]
    refine List.pairwise_cons.2 ⟨?_, ih⟩
    intro x hx
    have hxf := dropDup_subset _ hx
    have h2 : x.id ≠ a.id := by simpa using (List.mem_filter.1 hxf).2
    exact fun hEq => h2 hEq.symm

theorem dropDup_eq_self (l : List Activity)
    (h : l.Pairwise (fun a b => a.id ≠ b.id)) : dropDuplicatesById l = l := by
  induction l with
  | nil => simp [dropDup_nil]
  | cons a rest ih =>
    rw [dropDup_cons]
    rcases List.pairwise_cons.1 h with ⟨ha, hrest⟩
    have hf : rest.filter (fun b => b.id ≠ a.id) = rest :=
      List.filter_eq_self.2 (fun b hb => by simpa using (ha b hb).symm)
    rw [hf, ih hrest]

theorem mem_dropDup_append_left :
    ∀ (B tail : List Activity) (a : Activity),
      B.Pairwise (fun x y => x.id ≠ y.id) → a ∈ B →
      a ∈ dropDuplicatesById (B ++ tail)
  | [], _, a, _, ha => absurd ha (List.not_mem_nil a)
  | b :: B', tail, a, hp, ha => by
    rw [List.cons_append, dropDup_cons]
    rcases List.mem_cons.1 ha with h | h
    · exact h ▸ List.mem_cons_self _ _
    · rcases List.pairwise_cons.1 hp with ⟨hb, hB'⟩
      have hfB : B'.filter (fun x => x.id ≠ b.id) = B' :=
        List.filter_eq_self.2 (fun x hx => by simpa using (hb x hx).symm)
      rw [List.filter_append, hfB]
      exact List.mem_cons_of_mem _
        (mem_dropDup_append_left B' (tail.filter (fun x => x.id ≠ b.id)) a hB' h)

theorem mem_left_of_mem_dropDup :
    ∀ (B old : List Activity) (r : Activity),
      r ∈ dropDuplicatesById (B ++ old) → r.id ∈ B.map Activity.id → r ∈ B
  | [], _, _, _, hid => absurd hid (by simp)
  | b :: B', old, r, hmem, hid => by
    rw [List.cons_append, dropDup_cons] at hmem
    rcases List.mem_cons.1 hmem with h | h
    · exact h ▸ List.mem_cons_self _ _
    · have hrid : r.id ≠ b.id := by
        simpa using (List.mem_filter.1 (dropDup_subset _ h)).2
      have hid2 : r.id ∈ B'.map Activity.id := by
        rcases (by simpa using hid :
            r.id = b.id ∨ ∃ x ∈ B', x.id = r.id) with h1 | ⟨x, hx, hxid⟩
        · exact absurd h1 hrid
        · exact List.mem_map.2 ⟨x, hx, hxid⟩
      rw [List.filter_append] at h
      have hidf : r.id ∈ (B'.filter (fun x => x.id ≠ b.id)).map Activity.id := by
        rcases List.mem_map.1 hid2 with ⟨x, hx, hxid⟩
        exact List.mem_map.2
          ⟨x, List.mem_filter.2 ⟨hx, by simpa [hxid] using hrid⟩, hxid⟩
      exact List.mem_cons_of_mem _ (List.mem_of_mem_filter
        (mem_left_of_mem_dropDup (B'.filter (fun x => x.id ≠ b.id))
          (old.filter (fun x => x.id ≠ b.id)) r h hidf))
termination_by B _ _ _ _ => B.length
decreasing_by
  simp only [List.length_cons]
  exact Nat.lt_succ_of_le (List.length_filter_le _ _)

theorem dropDup_append_dropDup :
    ∀ (B old : List Activity),
      dropDuplicatesById (B ++ dropDuplicatesById (B ++ old))
        = dropDuplicatesById (B ++ old)
  | [], old => by
    simpa using dropDup_eq_self _ (dropDup_pairwise old)
  | b :: B', old => by
    have hDfilter :
        (dropDuplicatesById ((B' ++ old).filter (fun y => y.id ≠ b.id))).filter
            (fun y => y.id ≠ b.id)
          = dropDuplicatesById ((B' ++ old).filter (fun y => y.id ≠ b.id)) :=
      List.filter_eq_self.2 (fun x hx => by
        simpa using (List.mem_filter.1 (dropDup_subset _ hx)).2)
    calc
      dropDuplicatesById ((b :: B') ++ dropDuplicatesById ((b :: B') ++ old))
          = b :: dropDuplicatesById ((B' ++ (b ::
              dropDuplicatesById ((B' ++ old).filter (fun y => y.id ≠ b.id)))).filter
              (fun y => y.id ≠ b.id)) := by
            rw [List.cons_append, List.cons_append, dropDup_cons, dropDup_cons]
      _ = b :: dropDuplicatesById (B'.filter (fun y => y.id ≠ b.id) ++
              dropDuplicatesById (B'.filter (fun y => y.id ≠ b.id) ++
                old.filter (fun y => y.id ≠ b.id))) := by
            rw [List.filter_append, List.filter_cons, if_neg (by simp),
              hDfilter, List.filter_append]
      _ = b :: dropDuplicatesById (B'.filter (fun y => y.id ≠ b.id) ++
              old.filter (fun y => y.id ≠ b.id)) := by
            rw [dropDup_append_dropDup (B'.filter (fun y => y.id ≠ b.id))
              (old.filter (fun y => y.id ≠ b.id))]
      _ = dropDuplicatesById ((b :: B') ++ old) := by
            rw [List.cons_append, dropDup_cons, List.filter_append]
termination_by B _ => B.length
decreasing_by
  simp only [List.length_cons]
  exact Nat.lt_succ_of_le (List.length_filter_le _ _)

theorem dropDup_append_self (B : List Activity)
    (h : B.Pairwise (fun a b => a.id ≠ b.id)) :
    dropDuplicatesById (B ++ B) = B := by
  induction B with
  | nil => simp [dropDup_nil]
  | cons b B' ih =>
    rcases List.pairwise_cons.1 h with ⟨hb, hB'⟩
    have hfB : B'.filter (fun x => x.id ≠ b.id) = B' :=
      List.filter_eq_self.2 (fun x hx => by simpa using (hb x hx).symm)
    rw [List.cons_append, dropDup_cons, List.filter_append, List.filter_cons,
      if_neg (by simp), hfB, ih hB']

/-! ## Lemmas about strict zipping -/

theorem zip3Strict_eq_some {α β γ : Type} :
    ∀ (l1 : List α) (l2 : List β) (l3 : List γ),
      l2.length = l1.length → l3.length = l1.length →
      zip3Strict l1 l2 l3 = some (l1.zip (l2.zip l3)) := by
  intro l1
  induction l1 with
  | nil =>
    intro l2 l3 h2 h3
    rw [List.length_nil, List.length_eq_zero] at h2 h3
    subst h2; subst h3; rfl
  | cons a as ih =>
    intro l2 l3 h2 h3
    cases l2 with
    | nil => simp at h2
    | cons b bs =>
      cases l3 with
      | nil => simp at h3
      | cons c cs =>
        simp only [zip3Strict, List.zip_cons_cons]
        rw [ih bs cs (by simpa using h2) (by simpa using h3)]
        rfl

theorem zip3Strict_eq_none {α β γ : Type} :
    ∀ (l1 : List α) (l2 : List β) (l3 : List γ),
      ¬(l2.length = l1.length ∧ l3.length = l1.length) →
      zip3Strict l1 l2 l3 = none := by
  intro l1
  induction l1 with
  | nil =>
    intro l2 l3 h
    cases l2 with
    | nil =>
      cases l3 with
      | nil => exact absurd ⟨rfl, rfl⟩ h
      | cons c cs => rfl
    | cons b bs => cases l3 <;> rfl
  | cons a as ih =>
    intro l2 l3 h
    cases l2 with
    | nil => rfl
    | cons b bs =>
      cases l3 with
      | nil => rfl
      | cons c cs =>
        simp only [zip3Strict]
        rw [ih bs cs (fun hc => h ⟨by simpa using hc.1, by simpa using hc.2⟩)]
        rfl

/-! ## Lemmas about delta discovery -/

theorem scanPage_mem (local_ids : List Nat) :
    ∀ (acts : List Activity) (a : Activity),
      a ∈ acts → a.id ∉ local_ids → a ∈ (scanPage local_ids acts).1 := by
  intro acts
  induction acts with
  | nil =>
    intro a ha _
    exact absurd ha (List.not_mem_nil a)
  | cons act rest ih =>
    intro a ha hnot
    rcases List.mem_cons.1 ha with rfl | h
    · simp [scanPage, hnot]
    · by_cases hmem : act.id ∈ local_ids
      · simpa [scanPage, hmem] using ih a h hnot
      · simp [scanPage, hmem]
        exact Or.inr (ih a h hnot)

theorem fetchGo_mem_page1 (pages : Nat → List Activity) (local_ids : List Nat)
    (n : Nat) (a : Activity) (hmem : a ∈ pages 1) (hnot : a.id ∉ local_ids) :
    a ∈ (fetchGo pages local_ids (n + 1) 1).1 := by
  have hne : pages 1 ≠ [] := fun h => by simp [h] at hmem
  have hsc := scanPage_mem local_ids (pages 1) a hmem hnot
  simp only [fetchGo]
  rw [if_neg hne]
  by_cases hf : (scanPage local_ids (pages 1)).2
  · simpa [hf] using hsc
  · simp [hf]
    exact Or.inl hsc

theorem fetch_mem_page1 (pages : Nat → List Activity) (local_ids : List Nat)
    (fuel : Nat) (a : Activity) (hfuel : 1 ≤ fuel) (hmem : a ∈ pages 1)
    (hnot : a.id ∉ local_ids) :
    a ∈ ((fetch_new_activity_list pages local_ids fuel).1.getD []) := by
  obtain ⟨n, rfl⟩ : ∃ n, fuel = n + 1 := ⟨fuel - 1, by omega⟩
  have hgo := fetchGo_mem_page1 pages local_ids n a hmem hnot
  have hne : (fetchGo pages local_ids (n + 1) 1).1 ≠ [] := by
    intro h
    rw [h] at hgo
    exact List.not_mem_nil a hgo
  simp only [fetch_new_activity_list]
  rw [if_neg hne]
  simpa using hgo

/-! ## Lemmas about the per-activity loop -/

theorem update_rate_limits_spec (st : SyncState) (h : Option RateHeaders) :
    (update_rate_limits st h).1.gpxIds = st.gpxIds ∧
    (update_rate_limits st h).1.db = st.db ∧
    ((update_rate_limits st h).2 = [] ∨
      (update_rate_limits st h).2 = [Event.sleepCooldown]) := by
  cases h with
  | none => exact ⟨rfl, rfl, Or.inl rfl⟩
  | some hh =>
    by_cases hc : 10 * hh.usage15 > 9 * hh.limit15
    · simp [update_rate_limits, hc]
    · simp [update_rate_limits, hc]

theorem processActivity_skip (streamResp : Nat → StreamResponse) (act : Activity)
    (st : SyncState) (h404 : (streamResp act.id).status ≠ 404)
    (h2xx : is2xx (streamResp act.id).status = false) :
    processActivity streamResp act st
      = .ok ((update_rate_limits st (streamResp act.id).headers).1,
          (Event.streamCall act.id ::
            (update_rate_limits st (streamResp act.id).headers).2)
          ++ [Event.skip act.id]) := by
  simp [processActivity, get_streams, h404, h2xx]

theorem processActivity_404 (streamResp : Nat → StreamResponse) (act : Activity)
    (st : SyncState) (h404 : (streamResp act.id).status = 404) :
    processActivity streamResp act st
      = .ok ((update_rate_limits st (streamResp act.id).headers).1,
          (Event.streamCall act.id ::
            (update_rate_limits st (streamResp act.id).headers).2)
          ++ [Event.sleepFixed]) := by
  simp [processActivity, get_streams, h404]

theorem processActivity_2xx_error (streamResp : Nat → StreamResponse)
    (act : Activity) (st : SyncState) (e : GpxError)
    (h404 : (streamResp act.id).status ≠ 404)
    (h2xx : is2xx (streamResp act.id).status = true)
    (hcg : create_gpx (streamResp act.id).body act.start_date = .error e) :
    processActivity streamResp act st
      = .error (e, (update_rate_limits st (streamResp act.id).headers).1,
          Event.streamCall act.id ::
            (update_rate_limits st (streamResp act.id).headers).2) := by
  simp [processActivity, get_streams, h404, h2xx, hcg]

theorem processActivity_2xx_none (streamResp : Nat → StreamResponse)
    (act : Activity) (st : SyncState)
    (h404 : (streamResp act.id).status ≠ 404)
    (h2xx : is2xx (streamResp act.id).status = true)
    (hcg : create_gpx (streamResp act.id).body act.start_date = .ok none) :
    processActivity streamResp act st
      = .ok ((update_rate_limits st (streamResp act.id).headers).1,
          (Event.streamCall act.id ::
            (update_rate_limits st (streamResp act.id).headers).2)
          ++ [Event.sleepFixed]) := by
  simp [processActivity, get_streams, h404, h2xx, hcg]

theorem processActivity_2xx_some_old (streamResp : Nat → StreamResponse)
    (act : Activity) (st : SyncState) (pts : List GpxPoint)
    (h404 : (streamResp act.id).status ≠ 404)
    (h2xx : is2xx (streamResp act.id).status = true)
    (hcg : create_gpx (streamResp act.id).body act.start_date = .ok (some pts))
    (hmem : act.id ∈ st.gpxIds) :
    processActivity streamResp act st
      = .ok ((update_rate_limits st (streamResp act.id).headers).1,
          (Event.streamCall act.id ::
            (update_rate_limits st (streamResp act.id).headers).2)
          ++ [Event.sleepFixed]) := by
  have hg := (update_rate_limits_spec st (streamResp act.id).headers).1
  simp [processActivity, get_streams, h404, h2xx, hcg, hg, hmem]

theorem processActivity_2xx_some_new (streamResp : Nat → StreamResponse)
    (act : Activity) (st : SyncState) (pts : List GpxPoint)
    (h404 : (streamResp act.id).status ≠ 404)
    (h2xx : is2xx (streamResp act.id).status = true)
    (hcg : create_gpx (streamResp act.id).body act.start_date = .ok (some pts))
    (hmem : act.id ∉ st.gpxIds) :
    processActivity streamResp act st
      = .ok ({ (update_rate_limits st (streamResp act.id).headers).1 with
            gpxIds := act.id ::
              (update_rate_limits st (streamResp act.id).headers).1.gpxIds },
          (Event.streamCall act.id ::
            (update_rate_limits st (streamResp act.id).headers).2)
          ++ [Event.writeGpx act.id, Event.sleepFixed]) := by
  have hg := (update_rate_limits_spec st (streamResp act.id).headers).1
  simp [processActivity, get_streams, h404, h2xx, hcg, hg, hmem]

theorem create_gpx_no_position (streams : StreamSet) (s : String)
    (h : streams.latlng = none ∨ streams.latlng = some []) :
    create_gpx streams s = .ok none := by
  rcases h with h | h <;> simp [create_gpx, h]

theorem processActivity_ok_shape (streamResp : Nat → StreamResponse)
    (act : Activity) (st st1 : SyncState) (ev1 : List Event)
    (h : processActivity streamResp act st = .ok (st1, ev1)) :
    st1.db = st.db ∧
    (st1.gpxIds = st.gpxIds ∨ st1.gpxIds = act.id :: st.gpxIds) ∧
    ∃ cd tl, (cd = [] ∨ cd = [Event.sleepCooldown]) ∧
      (tl = [Event.skip act.id] ∨ tl = [Event.sleepFixed] ∨
        tl = [Event.writeGpx act.id, Event.sleepFixed]) ∧
      ev1 = (Event.streamCall act.id :: cd) ++ tl := by
  obtain ⟨hg, hd, hcd⟩ := update_rate_limits_spec st (streamResp act.id).headers
  by_cases h404 : (streamResp act.id).status = 404
  · rw [processActivity_404 streamResp act st h404] at h
    simp only [Except.ok.injEq, Prod.mk.injEq] at h
    obtain ⟨rfl, rfl⟩ := h
    exact ⟨hd, Or.inl hg, _, _, hcd, Or.inr (Or.inl rfl), rfl⟩
  by_cases h2xx : is2xx (streamResp act.id).status
  · rcases hcg : create_gpx (streamResp act.id).body act.start_date with e | o
    · rw [processActivity_2xx_error streamResp act st e h404 h2xx hcg] at h
      exact absurd h (by simp)
    rcases o with _ | pts
    · rw [processActivity_2xx_none streamResp act st h404 h2xx hcg] at h
      simp only [Except.ok.injEq, Prod.mk.injEq] at h
      obtain ⟨rfl, rfl⟩ := h
      exact ⟨hd, Or.inl hg, _, _, hcd, Or.inr (Or.inl rfl), rfl⟩
    by_cases hmem : act.id ∈ st.gpxIds
    · rw [processActivity_2xx_some_old streamResp act st pts h404 h2xx hcg hmem] at h
      simp only [Except.ok.injEq, Prod.mk.injEq] at h
      obtain ⟨rfl, rfl⟩ := h
      exact ⟨hd, Or.inl hg, _, _, hcd, Or.inr (Or.inl rfl), rfl⟩
    · rw [processActivity_2xx_some_new streamResp act st pts h404 h2xx hcg hmem] at h
      simp only [Except.ok.injEq, Prod.mk.injEq] at h
      obtain ⟨rfl, rfl⟩ := h
      exact ⟨hd, Or.inr (by simp [hg]), _, _, hcd, Or.inr (Or.inr rfl), rfl⟩
  · rw [processActivity_skip streamResp act st h404 (by simpa using h2xx)] at h
    simp only [Except.ok.injEq, Prod.mk.injEq] at h
    obtain ⟨rfl, rfl⟩ := h
    exact ⟨hd, Or.inl hg, _, _, hcd, Or.inl rfl, rfl⟩

theorem processActivity_ok_of_actOk (streamResp : Nat → StreamResponse)
    (act : Activity) (st : SyncState)
    (hok : actOk streamResp act = true) :
    ∃ st1 ev1, processActivity streamResp act st = .ok (st1, ev1) := by
  by_cases h404 : (streamResp act.id).status = 404
  · exact ⟨_, _, processActivity_404 streamResp act st h404⟩
  by_cases h2xx : is2xx (streamResp act.id).status
  · rcases hcg : create_gpx (streamResp act.id).body act.start_date with e | o
    · rw [actOk] at hok
      simp only [h404, h2xx, hcg] at hok
      simp at hok
    rcases o with _ | pts
    · exact ⟨_, _, processActivity_2xx_none streamResp act st h404 h2xx hcg⟩
    by_cases hmem : act.id ∈ st.gpxIds
    · exact ⟨_, _,
        processActivity_2xx_some_old streamResp act st pts h404 h2xx hcg hmem⟩
    · exact ⟨_, _,
        processActivity_2xx_some_new streamResp act st pts h404 h2xx hcg hmem⟩
  · exact ⟨_, _, processActivity_skip streamResp act st h404 (by simpa using h2xx)⟩

theorem processActivity_noWrite (streamResp : Nat → StreamResponse)
    (act : Activity) (st : SyncState)
    (hnw : noWritePossible streamResp act = true) :
    ∃ st1 ev1, processActivity streamResp act st = .ok (st1, ev1) ∧
      st1.gpxIds = st.gpxIds ∧ st1.db = st.db := by
  obtain ⟨hg, hd, _⟩ := update_rate_limits_spec st (streamResp act.id).headers
  by_cases h404 : (streamResp act.id).status = 404
  · exact ⟨_, _, processActivity_404 streamResp act st h404, hg, hd⟩
  by_cases h2xx : is2xx (streamResp act.id).status
  · have hpos : (streamResp act.id).body.latlng = none ∨
        (streamResp act.id).body.latlng = some [] := by
      rw [noWritePossible] at hnw
      simp only [h404, h2xx] at hnw
      rcases hll : (streamResp act.id).body.latlng with _ | ll
      · exact Or.inl rfl
      rcases ll with _ | ⟨p, ps⟩
      · exact Or.inr rfl
      · simp [hll] at hnw
    have hcg := create_gpx_no_position (streamResp act.id).body act.start_date hpos
    exact ⟨_, _, processActivity_2xx_none streamResp act st h404 h2xx hcg, hg, hd⟩
  · exact ⟨_, _, processActivity_skip streamResp act st h404 (by simpa using h2xx),
      hg, hd⟩

theorem syncLoop_ok_of_all_actOk (streamResp : Nat → StreamResponse) :
    ∀ (acts : List Activity) (st : SyncState),
      (∀ a ∈ acts, actOk streamResp a = true) →
      ∃ st1 ev, syncLoop streamResp acts st = .ok (st1, ev) ∧ st1.db = st.db := by
  intro acts
  induction acts with
  | nil => exact fun st _ => ⟨st, [], rfl, rfl⟩
  | cons act rest ih =>
    intro st hall
    obtain ⟨st1, ev1, h1⟩ := processActivity_ok_of_actOk streamResp act st
      (hall act (List.mem_cons_self _ _))
    obtain ⟨st2, ev2, h2, hdb2⟩ :=
      ih st1 (fun a ha => hall a (List.mem_cons_of_mem _ ha))
    have hdb1 := (processActivity_ok_shape streamResp act st st1 ev1 h1).1
    exact ⟨st2, ev1 ++ ev2, by simp [syncLoop, h1, h2], hdb2.trans hdb1⟩

theorem syncLoop_noWrite (streamResp : Nat → StreamResponse) :
    ∀ (acts : List Activity) (st : SyncState),
      (∀ a ∈ acts, noWritePossible streamResp a = true) →
      ∃ st1 ev, syncLoop streamResp acts st = .ok (st1, ev) ∧
        st1.gpxIds = st.gpxIds ∧ st1.db = st.db := by
  intro acts
  induction acts with
  | nil => exact fun st _ => ⟨st, [], rfl, rfl, rfl⟩
  | cons act rest ih =>
    intro st hall
    obtain ⟨st1, ev1, h1, hg1, hd1⟩ := processActivity_noWrite streamResp act st
      (hall act (List.mem_cons_self _ _))
    obtain ⟨st2, ev2, h2, hg2, hd2⟩ :=
      ih st1 (fun a ha => hall a (List.mem_cons_of_mem _ ha))
    exact ⟨st2, ev1 ++ ev2, by simp [syncLoop, h1, h2],
      hg2.trans hg1, hd2.trans hd1⟩

theorem syncLoop_id_unwritten (streamResp : Nat → StreamResponse) (i : Nat) :
    ∀ (acts : List Activity) (st st1 : SyncState) (ev : List Event),
      syncLoop streamResp acts st = .ok (st1, ev) →
      (∀ b ∈ acts, b.id = i → noWritePossible streamResp b = true) →
      i ∉ st.gpxIds → i ∉ st1.gpxIds := by
  intro acts
  induction acts with
  | nil =>
    intro st st1 ev h _ hnot
    simp only [syncLoop, Except.ok.injEq, Prod.mk.injEq] at h
    obtain ⟨rfl, -⟩ := h
    exact hnot
  | cons act rest ih =>
    intro st st1 ev h hnw hnot
    rcases hp : processActivity streamResp act st with e | ⟨stA, evA⟩
    · rw [syncLoop, hp] at h
      exact absurd h (by simp)
    rcases hq : syncLoop streamResp rest stA with ⟨e, stB, evB⟩ | ⟨stB, evB⟩
    · simp only [syncLoop, hp, hq] at h
      exact absurd h (by simp)
    simp only [syncLoop, hp, hq, Except.ok.injEq, Prod.mk.injEq] at h
    obtain ⟨rfl, -⟩ := h
    have hnotA : i ∉ stA.gpxIds := by
      by_cases hid : act.id = i
      · obtain ⟨stA2, evA2, hA2, hg2, -⟩ := processActivity_noWrite streamResp
          act st (hnw act (List.mem_cons_self _ _) hid)
        rw [hp] at hA2
        simp only [Except.ok.injEq, Prod.mk.injEq] at hA2
        obtain ⟨rfl, -⟩ := hA2
        rw [hg2]
        exact hnot
      · obtain ⟨-, hg, -⟩ := processActivity_ok_shape streamResp act st stA evA hp
        rcases hg with hg | hg
        · rw [hg]
          exact hnot
        · rw [hg]
          intro hmem
          rcases List.mem_cons.1 hmem with h1 | h1
          · exact hid h1.symm
          · exact hnot h1
    exact ih stA stB evB hq (fun b hb => hnw b (List.mem_cons_of_mem _ hb)) hnotA

theorem syncLoop_streamCall_mem (streamResp : Nat → StreamResponse) :
    ∀ (acts : List Activity) (st st1 : SyncState) (ev : List Event),
      syncLoop streamResp acts st = .ok (st1, ev) →
      ∀ a ∈ acts, Event.streamCall a.id ∈ ev := by
  intro acts
  induction acts with
  | nil =>
    intro st st1 ev _ a ha
    exact absurd ha (List.not_mem_nil a)
  | cons act rest ih =>
    intro st st1 ev h a ha
    rcases hp : processActivity streamResp act st with e | ⟨stA, evA⟩
    · rw [syncLoop, hp] at h
      exact absurd h (by simp)
    rcases hq : syncLoop streamResp rest stA with ⟨e, stB, evB⟩ | ⟨stB, evB⟩
    · simp only [syncLoop, hp, hq] at h
      exact absurd h (by simp)
    simp only [syncLoop, hp, hq, Except.ok.injEq, Prod.mk.injEq] at h
    obtain ⟨rfl, rfl⟩ := h
    rcases List.mem_cons.1 ha with rfl | ha2
    · obtain ⟨_, _, cd, tl, _, _, hev⟩ :=
        processActivity_ok_shape streamResp a st stA evA hp
      rw [hev]
      exact List.mem_append_left _ (List.mem_cons_self _ _)
    · exact List.mem_append_right _ (ih stA stB evB hq a ha2)

theorem syncLoop_error_mid (streamResp : Nat → StreamResponse) :
    ∀ (pre : List Activity) (act : Activity) (post : List Activity)
      (st : SyncState) (e : GpxError),
      (∀ a ∈ pre, actOk streamResp a = true) →
      (streamResp act.id).status ≠ 404 →
      is2xx (streamResp act.id).status = true →
      create_gpx (streamResp act.id).body act.start_date = .error e →
      ∃ st1 ev, syncLoop streamResp (pre ++ act :: post) st = .error (e, st1, ev) ∧
        st1.db = st.db := by
  intro pre
  induction pre with
  | nil =>
    intro act post st e _ h404 h2xx hcg
    obtain ⟨_, hd, _⟩ := update_rate_limits_spec st (streamResp act.id).headers
    refine ⟨(update_rate_limits st (streamResp act.id).headers).1,
      Event.streamCall act.id ::
        (update_rate_limits st (streamResp act.id).headers).2, ?_, hd⟩
    rw [List.nil_append, syncLoop,
      processActivity_2xx_error streamResp act st e h404 h2xx hcg]
  | cons b pre2 ih =>
    intro act post st e hpre h404 h2xx hcg
    obtain ⟨stB, evB, hB⟩ := processActivity_ok_of_actOk streamResp b st
      (hpre b (List.mem_cons_self _ _))
    obtain ⟨st1, ev, h1, hdb⟩ := ih act post stB e
      (fun a ha => hpre a (List.mem_cons_of_mem _ ha)) h404 h2xx hcg
    have hdbB := (processActivity_ok_shape streamResp b st stB evB hB).1
    refine ⟨st1, evB ++ ev, ?_, hdb.trans hdbB⟩
    rw [List.cons_append]
    simp only [syncLoop, hB, h1]

/-! ## Lemmas about the delay discipline of the event trace -/

theorem delayOrSkip_append (mid t : List Event)
    (hnc : ∀ e ∈ mid, isStreamCall e = false)
    (hterm : ∃ e ∈ mid, isTerminator e = true) :
    delayOrSkipBeforeNextCall (mid ++ t) = true := by
  induction mid with
  | nil =>
    rcases hterm with ⟨e, he, _⟩
    exact absurd he (List.not_mem_nil e)
  | cons x mid2 ih =>
    have hx := hnc x (List.mem_cons_self _ _)
    have hnc2 : ∀ e ∈ mid2, isStreamCall e = false :=
      fun e he => hnc e (List.mem_cons_of_mem _ he)
    cases x with
    | fetchPage p =>
      refine ih hnc2 ?_
      rcases hterm with ⟨e, he, hterm2⟩
      rcases List.mem_cons.1 he with rfl | he2
      · exact absurd hterm2 (by simp [isTerminator])
      · exact ⟨e, he2, hterm2⟩
    | streamCall i => exact absurd hx (by simp [isStreamCall])
    | sleepCooldown =>
      refine ih hnc2 ?_
      rcases hterm with ⟨e, he, hterm2⟩
      rcases List.mem_cons.1 he with rfl | he2
      · exact absurd hterm2 (by simp [isTerminator])
      · exact ⟨e, he2, hterm2⟩
    | writeGpx i =>
      refine ih hnc2 ?_
      rcases hterm with ⟨e, he, hterm2⟩
      rcases List.mem_cons.1 he with rfl | he2
      · exact absurd hterm2 (by simp [isTerminator])
      · exact ⟨e, he2, hterm2⟩
    | sleepFixed => rfl
    | skip i => rfl

theorem checker_append_no_calls (mid t : List Event)
    (hnc : ∀ e ∈ mid, isStreamCall e = false) :
    everyAttemptDelayedOrSkipped (mid ++ t)
      = everyAttemptDelayedOrSkipped t := by
  induction mid with
  | nil => rfl
  | cons x mid2 ih =>
    have hx := hnc x (List.mem_cons_self _ _)
    have hnc2 : ∀ e ∈ mid2, isStreamCall e = false :=
      fun e he => hnc e (List.mem_cons_of_mem _ he)
    cases x with
    | streamCall i => exact absurd hx (by simp [isStreamCall])
    | fetchPage p => exact ih hnc2
    | sleepCooldown => exact ih hnc2
    | writeGpx i => exact ih hnc2
    | sleepFixed => exact ih hnc2
    | skip i => exact ih hnc2

theorem checker_block (i : Nat) (mid t : List Event)
    (hnc : ∀ e ∈ mid, isStreamCall e = false)
    (hterm : ∃ e ∈ mid, isTerminator e = true)
    (ht : everyAttemptDelayedOrSkipped t = true) :
    everyAttemptDelayedOrSkipped ((Event.streamCall i :: mid) ++ t) = true := by
  rw [List.cons_append, everyAttemptDelayedOrSkipped,
    delayOrSkip_append mid t hnc hterm, checker_append_no_calls mid t hnc, ht]
  rfl

theorem syncLoop_trace_delayed (streamResp : Nat → StreamResponse) :
    ∀ (acts : List Activity) (st st1 : SyncState) (ev : List Event),
      syncLoop streamResp acts st = .ok (st1, ev) →
      everyAttemptDelayedOrSkipped ev = true := by
  intro acts
  induction acts with
  | nil =>
    intro st st1 ev h
    simp only [syncLoop, Except.ok.injEq, Prod.mk.injEq] at h
    rw [← h.2]
    rfl
  | cons act rest ih =>
    intro st st1 ev h
    rcases hp : processActivity streamResp act st with e | ⟨stA, evA⟩
    · rw [syncLoop, hp] at h
      exact absurd h (by simp)
    rcases hq : syncLoop streamResp rest stA with ⟨e, stB, evB⟩ | ⟨stB, evB⟩
    · simp only [syncLoop, hp, hq] at h
      exact absurd h (by simp)
    simp only [syncLoop, hp, hq, Except.ok.injEq, Prod.mk.injEq] at h
    obtain ⟨rfl, rfl⟩ := h
    obtain ⟨_, _, cd, tl, hcd, htl, hev⟩ :=
      processActivity_ok_shape streamResp act st stA evA hp
    have hnc : ∀ e ∈ cd ++ tl, isStreamCall e = false := by
      intro e he
      rcases List.mem_append.1 he with h1 | h1
      · rcases hcd with rfl | rfl
        · exact absurd h1 (List.not_mem_nil e)
        · rcases List.mem_cons.1 h1 with rfl | h2
          · rfl
          · exact absurd h2 (List.not_mem_nil e)
      · rcases htl with rfl | rfl | rfl
        · rcases List.mem_cons.1 h1 with rfl | h2
          · rfl
          · exact absurd h2 (List.not_mem_nil e)
        · rcases List.mem_cons.1 h1 with rfl | h2
          · rfl
          · exact absurd h2 (List.not_mem_nil e)
        · rcases List.mem_cons.1 h1 with rfl | h2
          · rfl
          rcases List.mem_cons.1 h2 with rfl | h3
          · rfl
          · exact absurd h3 (List.not_mem_nil e)
    have hterm : ∃ e ∈ cd ++ tl, isTerminator e = true := by
      rcases htl with rfl | rfl | rfl
      · exact ⟨Event.skip act.id, List.mem_append_right _ (List.mem_cons_self _ _), rfl⟩
      · exact ⟨Event.sleepFixed, List.mem_append_right _ (List.mem_cons_self _ _), rfl⟩
      · exact ⟨Event.sleepFixed, List.mem_append_right _
          (List.mem_cons_of_mem _ (List.mem_cons_self _ _)), rfl⟩
    have hblock := checker_block act.id (cd ++ tl) evB hnc hterm
      (ih stA stB evB hq)
    rw [hev]
    simpa [List.append_assoc] using hblock

theorem sync_completes (streamResp : Nat → StreamResponse)
    (pages : Nat → List Activity) (fuel : Nat) (st : SyncState)
    (new_activities : List Activity)
    (hfetch : (fetch_new_activity_list pages (get_local_activity_ids st) fuel).1
      = some new_activities)
    (hall : ∀ a ∈ new_activities, actOk streamResp a = true) :
    ∃ st1 evL, syncLoop streamResp new_activities st = .ok (st1, evL) ∧
      sync streamResp pages fuel st
        = .ok ({ st1 with db := some (update_local_db st.db new_activities) },
            ((fetch_new_activity_list pages (get_local_activity_ids st) fuel).2.map
              Event.fetchPage) ++ evL) := by
  obtain ⟨st1, evL, hL, hdb⟩ :=
    syncLoop_ok_of_all_actOk streamResp new_activities st hall
  refine ⟨st1, evL, hL, ?_⟩
  simp only [sync, hfetch, hL, hdb]

/-! ## The claims -/

/-- C1, counterexample: with known ids {101} and page 1 returning ids
[205, 204, 101, 203], `fetch_new_activity_list` returns the three new
activities [205, 204, 203] — the claimed result [205, 204] is wrong, the
item after the boundary hit is also appended — while page 2 is indeed
never requested. -/
theorem C1_counterexample :
    fetch_new_activity_list
      (fun p => if p = 1 then
        [⟨205, "a", "s", 0⟩, ⟨204, "b", "s", 0⟩, ⟨101, "c", "s", 0⟩,
         ⟨203, "d", "s", 0⟩]
        else []) [101] 5
      = (some [⟨205, "a", "s", 0⟩, ⟨204, "b", "s", 0⟩, ⟨203, "d", "s", 0⟩],
         [1]) := by
  decide

/-- C1 (amended): with known-id set {101}, when page 1 of the activity
list returns ids [205, 204, 101, 203] in that order,
`fetch_new_activity_list` returns exactly the new activities
[205, 204, 203] (in that order — the boundary hit does not stop the scan
of the rest of the page, so unknown 203 is also collected) and never
requests page 2. -/
theorem C1_boundary_scan (a205 a204 a101 a203 : Activity)
    (pages : Nat → List Activity) (fuel : Nat)
    (h1 : a205.id = 205) (h2 : a204.id = 204) (h3 : a101.id = 101)
    (h4 : a203.id = 203) (hp : pages 1 = [a205, a204, a101, a203])
    (hf : 1 ≤ fuel) :
    fetch_new_activity_list pages [101] fuel
      = (some [a205, a204, a203], [1]) := by
  obtain ⟨n, rfl⟩ : ∃ n, fuel = n + 1 := ⟨fuel - 1, by omega⟩
  simp [fetch_new_activity_list, fetchGo, hp, scanPage, h1, h2, h3, h4]

/-- C1 witness. -/
theorem C1_boundary_scan_witness :
    fetch_new_activity_list
      (fun p => if p = 1 then
        [⟨205, "a", "s", 0⟩, ⟨204, "b", "s", 0⟩, ⟨101, "c", "s", 0⟩,
         ⟨203, "d", "s", 0⟩]
        else []) [101] 1
      = (some [⟨205, "a", "s", 0⟩, ⟨204, "b", "s", 0⟩, ⟨203, "d", "s", 0⟩],
         [1]) :=
  C1_boundary_scan ⟨205, "a", "s", 0⟩ ⟨204, "b", "s", 0⟩ ⟨101, "c", "s", 0⟩
    ⟨203, "d", "s", 0⟩ _ 1 rfl rfl rfl rfl (by decide) (by decide)

/-- C2, counterexample: a credential with `expires_at` equal to
`now + 300` satisfies the claim's trigger `expires_at ≤ now + 300`, yet
the code (which tests the strict `expires_at < now + 300`) performs no
refresh call and returns the existing access token unchanged. -/
theorem C2_counterexample :
    (1300 : Int) ≤ 1000 + 300 ∧
    get_valid_token (fun _ => ⟨"new", "r2", 9999⟩) 1000
        (some ⟨"old", "r", 1300⟩)
      = .ok ⟨"old", some ⟨"old", "r", 1300⟩, 0⟩ := by
  constructor
  · decide
  · rfl

/-- C2 (amended): for every persisted credential, if
`expires_at < now + 300` (strictly) then `get_valid_token` triggers
exactly one refresh call and persists the refreshed credential (the
endpoint response verbatim) to the credential file before returning its
access token; if `expires_at ≥ now + 300` it returns the existing access
token unchanged with no refresh call and the file untouched. -/
theorem C2_refresh_window (refreshEndpoint : String → StravaToken)
    (now : Int) (token : StravaToken) :
    (token.expires_at < now + 300 →
      get_valid_token refreshEndpoint now (some token)
        = .ok ⟨(refreshEndpoint token.refresh_token).access_token,
            some (refreshEndpoint token.refresh_token), 1⟩)
    ∧ (now + 300 ≤ token.expires_at →
      get_valid_token refreshEndpoint now (some token)
        = .ok ⟨token.access_token, some token, 0⟩) := by
  constructor
  · intro h
    simp [get_valid_token, h]
  · intro h
    simp [get_valid_token, not_lt.2 h]

/-- C2 witness. -/
theorem C2_refresh_window_witness :
    get_valid_token (fun _ => ⟨"new", "r2", 9999⟩) 1000
        (some ⟨"old", "r", 1299⟩)
      = .ok ⟨"new", some ⟨"new", "r2", 9999⟩, 1⟩ ∧
    get_valid_token (fun _ => ⟨"new", "r2", 9999⟩) 1000
        (some ⟨"old", "r", 1300⟩)
      = .ok ⟨"old", some ⟨"old", "r", 1300⟩, 0⟩ :=
  ⟨(C2_refresh_window (fun _ => ⟨"new", "r2", 9999⟩) 1000
      ⟨"old", "r", 1299⟩).1 (by decide),
   (C2_refresh_window (fun _ => ⟨"new", "r2", 9999⟩) 1000
      ⟨"old", "r", 1300⟩).2 (by decide)⟩

/-- C3, counterexample: when no prior dataset file exists,
`update_local_db` persists the new batch verbatim with no deduplication,
so a batch containing two rows with id 1 yields a persisted dataset with
two rows sharing an id — the claimed invariant fails for that prior
state and batch. -/
theorem C3_counterexample :
    ¬ (update_local_db none
        [⟨1, "x", "s", 0⟩, ⟨1, "y", "s", 1⟩]).Pairwise
        (fun a b => a.id ≠ b.id) := by
  decide

/-- C3 (amended): provided the new batch itself contains no two summaries
with the same id, after every merge performed by `update_local_db`, for
any prior dataset state, the persisted dataset contains no two rows with
the same id, every new-batch row is present in it, and every resulting
row whose id occurs in the new batch is a new-batch row (so for ids
present in both the batch and the existing dataset, the new-batch row
wins). -/
theorem C3_merge_invariant (existing : Option (List Activity))
    (new_data : List Activity)
    (hdist : new_data.Pairwise (fun a b => a.id ≠ b.id)) :
    (update_local_db existing new_data).Pairwise (fun a b => a.id ≠ b.id) ∧
    (∀ a ∈ new_data, a ∈ update_local_db existing new_data) ∧
    (∀ r ∈ update_local_db existing new_data,
      r.id ∈ new_data.map Activity.id → r ∈ new_data) := by
  cases existing with
  | none =>
    exact ⟨hdist, fun a ha => ha, fun r hr _ => hr⟩
  | some old_df =>
    refine ⟨dropDup_pairwise _, ?_, ?_⟩
    · exact fun a ha => mem_dropDup_append_left new_data old_df a hdist ha
    · exact fun r hr hid => mem_left_of_mem_dropDup new_data old_df r hr hid

/-- C3 witness. -/
theorem C3_merge_invariant_witness :
    (update_local_db (some [⟨1, "old1", "s", 0⟩, ⟨3, "old3", "s", 0⟩])
        [⟨1, "new1", "s", 7⟩, ⟨2, "new2", "s", 0⟩]).Pairwise
        (fun a b => a.id ≠ b.id) ∧
    (∀ a ∈ [(⟨1, "new1", "s", 7⟩ : Activity), ⟨2, "new2", "s", 0⟩],
      a ∈ update_local_db (some [⟨1, "old1", "s", 0⟩, ⟨3, "old3", "s", 0⟩])
        [⟨1, "new1", "s", 7⟩, ⟨2, "new2", "s", 0⟩]) ∧
    (∀ r ∈ update_local_db (some [⟨1, "old1", "s", 0⟩, ⟨3, "old3", "s", 0⟩])
        [⟨1, "new1", "s", 7⟩, ⟨2, "new2", "s", 0⟩],
      r.id ∈ [(⟨1, "new1", "s", 7⟩ : Activity),
        ⟨2, "new2", "s", 0⟩].map Activity.id →
      r ∈ [(⟨1, "new1", "s", 7⟩ : Activity), ⟨2, "new2", "s", 0⟩]) :=
  C3_merge_invariant (some [⟨1, "old1", "s", 0⟩, ⟨3, "old3", "s", 0⟩])
    [⟨1, "new1", "s", 7⟩, ⟨2, "new2", "s", 0⟩] (by decide)

/-- C4, counterexample: with no prior dataset file and a batch containing
two rows with id 1, merging once persists both rows (count 2), while
merging the same batch again deduplicates (count 1) — so the merge is not
idempotent for that input, against the claim. -/
theorem C4_counterexample :
    (update_local_db
        (some (update_local_db none [⟨1, "x", "s", 0⟩, ⟨1, "y", "s", 1⟩]))
        [⟨1, "x", "s", 0⟩, ⟨1, "y", "s", 1⟩]).length
      ≠ (update_local_db none [⟨1, "x", "s", 0⟩, ⟨1, "y", "s", 1⟩]).length := by
  simp [update_local_db, dropDup_cons, dropDup_nil]

/-- C4 (amended): provided the new batch contains no two summaries with
the same id, merging the batch into the dataset and then merging the same
batch again yields exactly the same dataset (same rows in the same order,
hence same row count and contents) as merging it once. -/
theorem C4_merge_idempotent (existing : Option (List Activity))
    (new_data : List Activity)
    (hdist : new_data.Pairwise (fun a b => a.id ≠ b.id)) :
    update_local_db (some (update_local_db existing new_data)) new_data
      = update_local_db existing new_data := by
  cases existing with
  | none => exact dropDup_append_self new_data hdist
  | some old_df => exact dropDup_append_dropDup new_data old_df

/-- C4 witness. -/
theorem C4_merge_idempotent_witness :
    update_local_db
        (some (update_local_db (some [⟨1, "old1", "s", 0⟩])
          [⟨1, "new1", "s", 7⟩, ⟨2, "new2", "s", 0⟩]))
        [⟨1, "new1", "s", 7⟩, ⟨2, "new2", "s", 0⟩]
      = update_local_db (some [⟨1, "old1", "s", 0⟩])
          [⟨1, "new1", "s", 7⟩, ⟨2, "new2", "s", 0⟩] :=
  C4_merge_idempotent (some [⟨1, "old1", "s", 0⟩])
    [⟨1, "new1", "s", 7⟩, ⟨2, "new2", "s", 0⟩] (by decide)

theorem create_gpx_pos_some (l : List (Int × Int)) (alt : Option (List Int))
    (tim : Option (List Int)) (s : String) (t : Int)
    (triples : List ((Int × Int) × Int × Int)) (hne : l ≠ [])
    (hp : parseStartDate s = some t)
    (hz : zip3Strict l (alt.getD (List.replicate l.length 0))
        (tim.getD ((List.range l.length).map Int.ofNat)) = some triples) :
    create_gpx ⟨some l, alt, tim⟩ s
      = .ok (some (triples.map (fun tr =>
          ⟨tr.1.1, tr.1.2, tr.2.1, t + tr.2.2⟩))) := by
  cases l with
  | nil => exact absurd rfl hne
  | cons p ls =>
    simp only [List.length_cons] at hz
    simp [create_gpx, hp, hz]

theorem create_gpx_pos_none (l : List (Int × Int)) (alt : Option (List Int))
    (tim : Option (List Int)) (s : String) (t : Int) (hne : l ≠ [])
    (hp : parseStartDate s = some t)
    (hz : zip3Strict l (alt.getD (List.replicate l.length 0))
        (tim.getD ((List.range l.length).map Int.ofNat)) = none) :
    create_gpx ⟨some l, alt, tim⟩ s = .error .channelMismatch := by
  cases l with
  | nil => exact absurd rfl hne
  | cons p ls =>
    simp only [List.length_cons] at hz
    simp [create_gpx, hp, hz]

/-- C5 (confirmed): for every stream set whose position channel has length
N ≥ 1 and which lacks both the elevation and time-offset channels,
`create_gpx` produces a track of exactly N points, where the i-th point
copies the i-th position, has elevation 0, and has timestamp equal to the
parsed activity start time plus i seconds (offsets 0..N−1). -/
theorem C5_default_channels (l : List (Int × Int)) (s : String) (t : Int)
    (hne : l ≠ []) (hp : parseStartDate s = some t) :
    ∃ pts : List GpxPoint,
      create_gpx ⟨some l, none, none⟩ s = .ok (some pts) ∧
      pts.length = l.length ∧
      ∀ i (hil : i < l.length) (hip : i < pts.length),
        (pts.get ⟨i, hip⟩).elevation = 0 ∧
        (pts.get ⟨i, hip⟩).time = t + i ∧
        (pts.get ⟨i, hip⟩).latitude = (l.get ⟨i, hil⟩).1 ∧
        (pts.get ⟨i, hip⟩).longitude = (l.get ⟨i, hil⟩).2 := by
  have hz := zip3Strict_eq_some l (List.replicate l.length (0 : Int))
    ((List.range l.length).map Int.ofNat) (by simp) (by simp)
  rw [create_gpx_pos_some l none none s t _ hne hp hz]
  refine ⟨_, rfl, by simp, ?_⟩
  intro i hil hip
  simp [List.get_eq_getElem, List.getElem_map, List.getElem_zip,
    List.getElem_replicate, List.getElem_range]

/-- C5 witness. -/
theorem C5_default_channels_witness :
    ∃ pts : List GpxPoint,
      create_gpx ⟨some [(1, 2), (3, 4)], none, none⟩ "2026-02-04T12:00:00Z"
        = .ok (some pts) ∧
      pts.length = [((1 : Int), (2 : Int)), (3, 4)].length ∧
      ∀ i (hil : i < [((1 : Int), (2 : Int)), (3, 4)].length)
        (hip : i < pts.length),
        (pts.get ⟨i, hip⟩).elevation = 0 ∧
        (pts.get ⟨i, hip⟩).time = 1770206400 + i ∧
        (pts.get ⟨i, hip⟩).latitude
          = ([((1 : Int), (2 : Int)), (3, 4)].get ⟨i, hil⟩).1 ∧
        (pts.get ⟨i, hip⟩).longitude
          = ([((1 : Int), (2 : Int)), (3, 4)].get ⟨i, hil⟩).2 :=
  C5_default_channels [(1, 2), (3, 4)] "2026-02-04T12:00:00Z" 1770206400
    (by decide) (by decide)

/-- C6 (confirmed): for every stream set whose position channel is present
and non-empty, if after defaulting the elevation and time-offset channels
the three channel lengths are not all equal, `create_gpx` raises the
channel-mismatch error (the `ValueError` of `zip(..., strict=True)`) and
produces no track at all. -/
theorem C6_channel_mismatch (streams : StreamSet) (l : List (Int × Int))
    (s : String) (t : Int)
    (hl : streams.latlng = some l) (hne : l ≠ [])
    (hp : parseStartDate s = some t)
    (hmm : ¬((streams.altitude.getD (List.replicate l.length 0)).length
        = l.length ∧
      (streams.time.getD ((List.range l.length).map Int.ofNat)).length
        = l.length)) :
    create_gpx streams s = .error .channelMismatch := by
  obtain ⟨la, al, ti⟩ := streams
  simp only at hl hmm
  subst hl
  exact create_gpx_pos_none l al ti s t hne hp (zip3Strict_eq_none l _ _ hmm)

/-- C6 witness: a position channel of length 10 with an elevation channel
of length 8. -/
theorem C6_channel_mismatch_witness :
    create_gpx
      ⟨some (List.replicate 10 ((1 : Int), (2 : Int))),
       some (List.replicate 8 (0 : Int)), none⟩
      "2026-02-04T12:00:00Z"
      = .error .channelMismatch :=
  C6_channel_mismatch _ (List.replicate 10 ((1 : Int), (2 : Int)))
    "2026-02-04T12:00:00Z" 1770206400 rfl (by decide) (by decide) (by decide)

/-- C7 (confirmed): if the stream request for one activity returns an
unsuccessful HTTP status other than 404, that `HTTPStatusError` is caught:
the loop body still returns normally with the skip log event, no track is
written and the gpx set is unchanged, so the loop continues; and provided
every discovered activity's body completes without an uncaught error, the
run completes and the final dataset merge runs over all discovered
summaries. A 404 status is not an error: `get_streams` returns the
explicit absence signal `(False, {})` and no track is built. -/
theorem C7_stream_failure_isolated (streamResp : Nat → StreamResponse)
    (pages : Nat → List Activity) (fuel : Nat) (st : SyncState)
    (act : Activity) (new_activities : List Activity)
    (hfetch : (fetch_new_activity_list pages (get_local_activity_ids st) fuel).1
      = some new_activities)
    (hall : ∀ a ∈ new_activities, actOk streamResp a = true) :
    ((streamResp act.id).status ≠ 404 →
      is2xx (streamResp act.id).status = false →
      ∃ st1 ev1, processActivity streamResp act st = .ok (st1, ev1) ∧
        st1.gpxIds = st.gpxIds ∧ Event.skip act.id ∈ ev1 ∧
        Event.writeGpx act.id ∉ ev1)
    ∧ ((streamResp act.id).status = 404 →
      (get_streams streamResp act.id st).2.2 = .ok false {} ∧
      ∃ st1 ev1, processActivity streamResp act st = .ok (st1, ev1) ∧
        st1.gpxIds = st.gpxIds ∧ Event.writeGpx act.id ∉ ev1)
    ∧ (∃ st1 ev, sync streamResp pages fuel st = .ok (st1, ev) ∧
        st1.db = some (update_local_db st.db new_activities)) := by
  obtain ⟨hg, hd, hcd⟩ := update_rate_limits_spec st (streamResp act.id).headers
  refine ⟨?_, ?_, ?_⟩
  · intro h404 h2xx
    refine ⟨_, _, processActivity_skip streamResp act st h404 h2xx, hg, ?_, ?_⟩
    · exact List.mem_append_right _ (List.mem_cons_self _ _)
    · intro hmem
      rcases hcd with hcd | hcd <;> rw [hcd] at hmem <;> simp at hmem
  · intro h404
    constructor
    · simp [get_streams, h404]
    refine ⟨_, _, processActivity_404 streamResp act st h404, hg, ?_⟩
    intro hmem
    rcases hcd with hcd | hcd <;> rw [hcd] at hmem <;> simp at hmem
  · obtain ⟨st1, evL, hL, hs⟩ :=
      sync_completes streamResp pages fuel st new_activities hfetch hall
    exact ⟨_, _, hs, rfl⟩

/-- C7 witness. -/
theorem C7_stream_failure_isolated_witness :
    ∃ st1 ev,
      sync
        (fun i => if i = 1 then ⟨500, none, {}⟩
          else if i = 2 then ⟨404, none, {}⟩
          else ⟨200, none, ⟨some [(1, 2)], none, none⟩⟩)
        (fun p => if p = 1 then
          [⟨1, "a", "2026-02-04T12:00:00Z", 0⟩,
           ⟨2, "b", "2026-02-04T12:00:00Z", 0⟩,
           ⟨3, "c", "2026-02-04T12:00:00Z", 0⟩] else [])
        2 ⟨[], none, none⟩
      = .ok (st1, ev) ∧
      st1.db = some (update_local_db none
        [⟨1, "a", "2026-02-04T12:00:00Z", 0⟩,
         ⟨2, "b", "2026-02-04T12:00:00Z", 0⟩,
         ⟨3, "c", "2026-02-04T12:00:00Z", 0⟩]) :=
  (C7_stream_failure_isolated
    (fun i => if i = 1 then ⟨500, none, {}⟩
      else if i = 2 then ⟨404, none, {}⟩
      else ⟨200, none, ⟨some [(1, 2)], none, none⟩⟩)
    (fun p => if p = 1 then
      [⟨1, "a", "2026-02-04T12:00:00Z", 0⟩,
       ⟨2, "b", "2026-02-04T12:00:00Z", 0⟩,
       ⟨3, "c", "2026-02-04T12:00:00Z", 0⟩] else [])
    2 ⟨[], none, none⟩ ⟨1, "a", "2026-02-04T12:00:00Z", 0⟩
    [⟨1, "a", "2026-02-04T12:00:00Z", 0⟩,
     ⟨2, "b", "2026-02-04T12:00:00Z", 0⟩,
     ⟨3, "c", "2026-02-04T12:00:00Z", 0⟩]
    (by decide) (by decide)).2.2

/-- C8, counterexample: on a run where activity 1's stream request returns
status 500 (a skip) and activity 2's returns 404, the trace is
[fetchPage 1, fetchPage 2, streamCall 1, skip 1, streamCall 2, sleepFixed]:
the skipped attempt for activity 1 is followed by the next stream request
with no fixed delay between them, because `time.sleep(0.5)` sits inside
the `try` block and the `except` handler jumps past it — so the claimed
"delay after every attempt" is false on this input. -/
theorem C8_counterexample :
    everyAttemptDelayed (syncTrace (sync
      (fun i => if i = 1 then ⟨500, none, {}⟩ else ⟨404, none, {}⟩)
      (fun p => if p = 1 then
        [⟨1, "a", "x", 0⟩, ⟨2, "b", "x", 0⟩] else [])
      5 ⟨[], none, none⟩)) = false := by
  decide

/-- C8 (amended): in the per-activity loop, after every stream-fetch
attempt that succeeds or reports absence, one fixed delay is inserted
before the next network call; an attempt skipped by the HTTP-status
handler proceeds to the next network call with no fixed delay at all (its
loop iteration emits no `sleepFixed` event). -/
theorem C8_delay_discipline (streamResp : Nat → StreamResponse)
    (pages : Nat → List Activity) (fuel : Nat) :
    (∀ st st1 ev, sync streamResp pages fuel st = .ok (st1, ev) →
      everyAttemptDelayedOrSkipped ev = true)
    ∧ (∀ act st, (streamResp act.id).status ≠ 404 →
        is2xx (streamResp act.id).status = false →
        ∃ st1 ev1, processActivity streamResp act st = .ok (st1, ev1) ∧
          Event.sleepFixed ∉ ev1) := by
  constructor
  · intro st st1 ev h
    have hnc : ∀ e ∈ (fetch_new_activity_list pages (get_local_activity_ids st)
        fuel).2.map Event.fetchPage, isStreamCall e = false := by
      intro e he
      rcases List.mem_map.1 he with ⟨p, _, rfl⟩
      rfl
    rcases hf : (fetch_new_activity_list pages (get_local_activity_ids st)
        fuel).1 with _ | acts
    · simp only [sync, hf, Except.ok.injEq, Prod.mk.injEq] at h
      obtain ⟨-, rfl⟩ := h
      have hch := checker_append_no_calls _ [] hnc
      rw [List.append_nil] at hch
      exact hch
    rcases hq : syncLoop streamResp acts st with ⟨e, stB, evB⟩ | ⟨stB, evB⟩
    · simp only [sync, hf, hq] at h
      exact absurd h (by simp)
    simp only [sync, hf, hq, Except.ok.injEq, Prod.mk.injEq] at h
    obtain ⟨-, rfl⟩ := h
    rw [checker_append_no_calls _ _ hnc]
    exact syncLoop_trace_delayed streamResp acts st stB evB hq
  · intro act st h404 h2xx
    refine ⟨_, _, processActivity_skip streamResp act st h404 h2xx, ?_⟩
    intro hmem
    obtain ⟨-, -, hcd⟩ := update_rate_limits_spec st (streamResp act.id).headers
    rcases hcd with hcd | hcd <;> rw [hcd] at hmem <;> simp at hmem

/-- C8 witness. -/
theorem C8_delay_discipline_witness :
    everyAttemptDelayedOrSkipped
      [Event.fetchPage 1, Event.fetchPage 2, Event.streamCall 1,
       Event.skip 1, Event.streamCall 2, Event.sleepFixed] = true ∧
    ∃ st1 ev1,
      processActivity
        (fun i => if i = 1 then ⟨500, none, {}⟩ else ⟨404, none, {}⟩)
        ⟨1, "a", "x", 0⟩ ⟨[], none, none⟩ = .ok (st1, ev1) ∧
      Event.sleepFixed ∉ ev1 :=
  ⟨(C8_delay_discipline
      (fun i => if i = 1 then ⟨500, none, {}⟩ else ⟨404, none, {}⟩)
      (fun p => if p = 1 then
        [⟨1, "a", "x", 0⟩, ⟨2, "b", "x", 0⟩] else []) 5).1
    ⟨[], none, none⟩
    ⟨[], some [⟨1, "a", "x", 0⟩, ⟨2, "b", "x", 0⟩], none⟩
    [Event.fetchPage 1, Event.fetchPage 2, Event.streamCall 1,
     Event.skip 1, Event.streamCall 2, Event.sleepFixed]
    (by decide),
   (C8_delay_discipline
      (fun i => if i = 1 then ⟨500, none, {}⟩ else ⟨404, none, {}⟩)
      (fun p => if p = 1 then
        [⟨1, "a", "x", 0⟩, ⟨2, "b", "x", 0⟩] else []) 5).2
    ⟨1, "a", "x", 0⟩ ⟨[], none, none⟩ (by decide) (by decide)⟩

/-- C9 (confirmed): if, during the per-activity loop, track construction
fails with the channel-mismatch error for one activity (all earlier
activities completing normally), the error is not caught by the loop's
handler — which catches only HTTP status errors — the run aborts with
that error, and the dataset merge is never invoked: the persisted dataset
is left exactly as it was before the run. -/
theorem C9_track_error_aborts (streamResp : Nat → StreamResponse)
    (pages : Nat → List Activity) (fuel : Nat) (st : SyncState)
    (pre post : List Activity) (act : Activity)
    (hfetch : (fetch_new_activity_list pages (get_local_activity_ids st) fuel).1
      = some (pre ++ act :: post))
    (hpre : ∀ a ∈ pre, actOk streamResp a = true)
    (h404 : (streamResp act.id).status ≠ 404)
    (h2xx : is2xx (streamResp act.id).status = true)
    (hcg : create_gpx (streamResp act.id).body act.start_date
      = .error .channelMismatch) :
    ∃ st1 ev, sync streamResp pages fuel st
        = .error (.channelMismatch, st1, ev) ∧
      st1.db = st.db := by
  obtain ⟨st1, ev, hL, hdb⟩ := syncLoop_error_mid streamResp pre act post st
    .channelMismatch hpre h404 h2xx hcg
  refine ⟨st1, ((fetch_new_activity_list pages (get_local_activity_ids st)
    fuel).2.map Event.fetchPage) ++ ev, ?_, hdb⟩
  simp only [sync, hfetch, hL]

/-- C9 witness: a single activity whose position channel has length 2 but
whose elevation channel has length 1. -/
theorem C9_track_error_aborts_witness :
    ∃ st1 ev,
      sync
        (fun _ => ⟨200, none, ⟨some [(1, 2), (3, 4)], some [5], none⟩⟩)
        (fun p => if p = 1 then
          [⟨1, "a", "2026-02-04T12:00:00Z", 0⟩] else [])
        2 ⟨[], none, none⟩
      = .error (.channelMismatch, st1, ev) ∧
      st1.db = (⟨[], none, none⟩ : SyncState).db :=
  C9_track_error_aborts
    (fun _ => ⟨200, none, ⟨some [(1, 2), (3, 4)], some [5], none⟩⟩)
    (fun p => if p = 1 then
      [⟨1, "a", "2026-02-04T12:00:00Z", 0⟩] else [])
    2 ⟨[], none, none⟩ [] []
    ⟨1, "a", "2026-02-04T12:00:00Z", 0⟩
    (by decide) (by decide) (by decide) (by decide) (by decide)

/-- C10, counterexample: the known-id set is the gpx file stems, and the
GPS-less activity id 7 is indeed not in it — yet a subsequent run does
NOT rediscover it when it lies on page 2 behind a boundary hit: with the
tracked (known) id 1 on page 1 and id 7 on page 2, pagination stops after
page 1 with no new activities, page 2 is never requested, and the run
makes no stream request for id 7 at all. So "every subsequent run
rediscovers it and requests its streams again" is false. -/
theorem C10_counterexample :
    (7 : Nat) ∉ get_local_activity_ids ⟨[1], none, none⟩ ∧
    fetch_new_activity_list
      (fun p => if p = 1 then [⟨1, "t", "x", 0⟩]
        else if p = 2 then [⟨7, "g", "x", 0⟩] else [])
      (get_local_activity_ids ⟨[1], none, none⟩) 5
      = (none, [1]) ∧
    Event.streamCall 7 ∉ syncTrace (sync
      (fun _ => ⟨200, none, ⟨none, none, none⟩⟩)
      (fun p => if p = 1 then [⟨1, "t", "x", 0⟩]
        else if p = 2 then [⟨7, "g", "x", 0⟩] else [])
      5 ⟨[1], none, none⟩) := by
  decide

/-- C10 (amended): the known-id set is exactly the set of ids with an
existing gpx file on disk; in any completed run in which every activity
bearing a given id lacks a usable position channel (other activities of
the run may write tracks freely), that id never enters the known-id set.
A subsequent run rediscovers such an activity and requests its streams
again only when the pagination scan reaches its page — in particular
whenever it appears on page 1; an unknown activity lying behind the
boundary page is never rediscovered. -/
theorem C10_gpsless_never_known (streamResp streamResp2 : Nat → StreamResponse)
    (acts : List Activity) (st st1 : SyncState) (ev : List Event)
    (act : Activity) (pages2 : Nat → List Activity) (fuel2 : Nat)
    (st2 : SyncState) (ev2 : List Event)
    (hnot : act.id ∉ st.gpxIds)
    (hnw : ∀ b ∈ acts, b.id = act.id → noWritePossible streamResp b = true)
    (hrun1 : syncLoop streamResp acts st = .ok (st1, ev))
    (hp2 : act ∈ pages2 1) (hfuel2 : 1 ≤ fuel2)
    (hrun2 : syncLoop streamResp2
        ((fetch_new_activity_list pages2 (get_local_activity_ids st1)
          fuel2).1.getD []) st1
      = .ok (st2, ev2)) :
    (∀ s : SyncState, get_local_activity_ids s = s.gpxIds) ∧
    act.id ∉ st1.gpxIds ∧
    act ∈ ((fetch_new_activity_list pages2 (get_local_activity_ids st1)
      fuel2).1.getD []) ∧
    Event.streamCall act.id ∈ ev2 := by
  have hnot1 : act.id ∉ st1.gpxIds :=
    syncLoop_id_unwritten streamResp act.id acts st st1 ev hrun1 hnw hnot
  have hmem2 := fetch_mem_page1 pages2 (get_local_activity_ids st1) fuel2 act
    hfuel2 hp2 hnot1
  exact ⟨fun _ => rfl, hnot1, hmem2,
    syncLoop_streamCall_mem streamResp2 _ st1 st2 ev2 hrun2 act hmem2⟩

/-- C10 witness: a mixed first run — activity 8 has GPS data and writes
its track, activity 7 has none and writes nothing — after which id 7 is
still unknown while id 8 is known; run two lists activity 7 on page 1
ahead of the known id 8, rediscovers it, and requests its streams again. -/
theorem C10_gpsless_never_known_witness :
    (⟨7, "g", "2026-02-04T12:00:00Z", 0⟩ : Activity).id
      ∉ SyncState.gpxIds ⟨[8], none, none⟩ ∧
    (⟨7, "g", "2026-02-04T12:00:00Z", 0⟩ : Activity)
      ∈ ((fetch_new_activity_list
        (fun p => if p = 1 then
          [⟨7, "g", "2026-02-04T12:00:00Z", 0⟩,
           ⟨8, "t", "2026-02-04T12:00:00Z", 0⟩] else [])
        (get_local_activity_ids ⟨[8], none, none⟩) 1).1.getD []) ∧
    Event.streamCall (⟨7, "g", "2026-02-04T12:00:00Z", 0⟩ : Activity).id
      ∈ [Event.streamCall 7, Event.sleepFixed] :=
  (C10_gpsless_never_known
    (fun i => if i = 8 then ⟨200, none, ⟨some [(1, 2)], none, none⟩⟩
      else ⟨200, none, ⟨none, none, none⟩⟩)
    (fun i => if i = 8 then ⟨200, none, ⟨some [(1, 2)], none, none⟩⟩
      else ⟨200, none, ⟨none, none, none⟩⟩)
    [⟨7, "g", "2026-02-04T12:00:00Z", 0⟩, ⟨8, "t", "2026-02-04T12:00:00Z", 0⟩]
    ⟨[], none, none⟩ ⟨[8], none, none⟩
    [Event.streamCall 7, Event.sleepFixed, Event.streamCall 8,
     Event.writeGpx 8, Event.sleepFixed]
    ⟨7, "g", "2026-02-04T12:00:00Z", 0⟩
    (fun p => if p = 1 then
      [⟨7, "g", "2026-02-04T12:00:00Z", 0⟩,
       ⟨8, "t", "2026-02-04T12:00:00Z", 0⟩] else [])
    1 ⟨[8], none, none⟩ [Event.streamCall 7, Event.sleepFixed]
    (by decide) (by decide) (by decide) (by decide) (by decide)
    (by decide)).2
